import Mathlib

/-!
Shallow embedding of the `bevy_time_runner` crate (files `time_runner.rs`,
`time_span.rs`).  `f32` values are modelled as exact rationals (`ℚ`): all the
arithmetic the claims exercise (addition, subtraction, division by a nonzero
length, `rem_euclid`, `floor`, comparisons) is exact on the values involved, so
the rational model agrees with the float code there.  The dispatcher's
infinity-valued percentages are modelled by an extended-value type `ExtFloat`.
Rust's `Duration` is modelled by its value in seconds (`ℚ`); `i32` by `ℤ`.
-/

namespace BevyTimeRunner

/-- `TimeDirection` from `time_span.rs`. -/
inductive TimeDirection
  | Forward
  | Backward
  deriving DecidableEq, Repr

/-- `Repeat` from `time_runner.rs`: repeat configuration of a timer. -/
inductive Repeat
  | Infinitely
  | InfinitelyCounted (times_repeated : ℤ)
  | Times (times : ℤ) (times_repeated : ℤ)
  deriving DecidableEq, Repr

/-- `RepeatStyle` from `time_runner.rs`. -/
inductive RepeatStyle
  | WrapAround
  | PingPong
  deriving DecidableEq, Repr

/-- `Repeat::exhausted` from `time_runner.rs`. -/
def Repeat.exhausted : Repeat → Bool
  | .Infinitely => false
  | .InfinitelyCounted _ => false
  | .Times times times_repeated => decide (times ≤ times_repeated)

/-- `Repeat::advance_counter_by` from `time_runner.rs`.  The Rust method
mutates `self` and returns the actual advanced count; here it returns the
updated `Repeat` together with that count. -/
def Repeat.advanceCounterBy : Repeat → ℤ → Repeat × ℤ
  | .Infinitely, k => (.Infinitely, k)
  | .InfinitelyCounted times_repeated, k =>
      (.InfinitelyCounted (times_repeated + k), k)
  | .Times times times_repeated, k =>
      let timesLeft := times - times_repeated
      if timesLeft = 0 then (.Times times times_repeated, 0)
      else
        let timesToAdvance := if timesLeft > k then k else timesLeft
        (.Times times (times_repeated + timesToAdvance), timesToAdvance)

/-- `TimeRunnerElasped` from `time_runner.rs` (fields in seconds / periods). -/
structure TimeRunnerElasped where
  now : ℚ
  now_period : ℚ
  previous : ℚ
  previous_period : ℚ
  deriving DecidableEq, Repr

/-- `TimeRunnerElasped::update`: shift `now` into `previous` and write the new
`now` and `now_period`. -/
def TimeRunnerElasped.update (e : TimeRunnerElasped) (now now_period : ℚ) :
    TimeRunnerElasped :=
  { now := now
    now_period := now_period
    previous := e.now
    previous_period := e.now_period }

/-- `TimeRunner` from `time_runner.rs`.  `length` is the timer length in
seconds (`Duration::as_secs_f32`), hence nonnegative in the source; the Rust
field `repeat` is named `repeat_` because `repeat` is a Lean keyword. -/
structure TimeRunner where
  paused : Bool
  elasped : TimeRunnerElasped
  length : ℚ
  direction : TimeDirection
  time_scale : ℚ
  repeat_ : Option (Repeat × RepeatStyle)
  deriving DecidableEq, Repr

/-- `saw_wave` from `time_runner.rs`: `x.rem_euclid(period)`.  For a positive
`period`, `rem_euclid` is `x - period * ⌊x / period⌋`. -/
def sawWave (x period : ℚ) : ℚ :=
  x - period * ⌊x / period⌋

/-- `triangle_wave` from `time_runner.rs`:
`((x + period).rem_euclid(period * 2.) - period).abs()`. -/
def triangleWave (x period : ℚ) : ℚ :=
  |sawWave (x + period) (period * 2) - period|

/-- `triangle_wave_direction` from `time_runner.rs`. -/
def triangleWaveDirection (repeats : ℤ) : TimeDirection :=
  if repeats % 2 = 0 then .Forward else .Backward

/-- `backward_triangle_wave_direction` from `time_runner.rs`. -/
def backwardTriangleWaveDirection (repeats : ℤ) : TimeDirection :=
  if repeats % 2 = 0 then .Backward else .Forward

/-- `period_percentage` from `time_runner.rs`. -/
def periodPercentage (x period : ℚ) : ℚ :=
  x / period

/-- The candidate cursor `new_elasped` computed at the top of
`TimeRunner::raw_tick`: `now + secs` Forward, `now - secs` Backward. -/
def TimeRunner.candidate (tr : TimeRunner) (secs : ℚ) : ℚ :=
  match tr.direction with
  | .Forward => tr.elasped.now + secs
  | .Backward => tr.elasped.now - secs

/-- The fall-through of the labelled block in `raw_tick`: clamp the candidate
into `[0, length]`, pinning the period to `1` / `0` at the clamped edges. -/
def clampUpdate (e : TimeRunnerElasped) (newElasped p length : ℚ) :
    TimeRunnerElasped :=
  if newElasped > length then e.update length 1
  else if newElasped < 0 then e.update 0 0
  else e.update newElasped p

/-- `TimeRunner::raw_tick` from `time_runner.rs`.  The Rust labelled block
`'a:` either produces a `RepeatStyle` (when a repeat exists, the tick crossed
at least one period boundary, and the counter actually advanced) or clamps and
returns; the counter mutation persists in both cases. -/
def TimeRunner.rawTick (tr : TimeRunner) (secs : ℚ) : TimeRunner :=
  let length := tr.length
  let newElasped := tr.candidate secs
  let p := periodPercentage newElasped length
  let repeatCount : ℤ := ⌊p⌋
  match tr.repeat_ with
  | none => { tr with elasped := clampUpdate tr.elasped newElasped p length }
  | some (r, style) =>
    if repeatCount = 0 then
      { tr with elasped := clampUpdate tr.elasped newElasped p length }
    else
      let signedCount :=
        if tr.direction = TimeDirection.Forward then repeatCount
        else -repeatCount
      let advanced := r.advanceCounterBy signedCount
      let tr2 := { tr with repeat_ := some (advanced.1, style) }
      if advanced.2 = 0 then
        { tr2 with elasped := clampUpdate tr2.elasped newElasped p length }
      else
        let wrapped :=
          match style with
          | RepeatStyle.WrapAround => sawWave newElasped length
          | RepeatStyle.PingPong => triangleWave newElasped length
        let tr3 := { tr2 with elasped := tr2.elasped.update wrapped p }
        match style with
        | RepeatStyle.WrapAround => tr3
        | RepeatStyle.PingPong =>
          { tr3 with
              direction :=
                match tr3.direction with
                | TimeDirection.Forward => triangleWaveDirection repeatCount
                | TimeDirection.Backward =>
                    backwardTriangleWaveDirection repeatCount }

/-- `TimeRunner::set_tick` from `time_runner.rs`: overwrite `now` and
recompute `now_period`; `previous`/`previous_period` untouched. -/
def TimeRunner.setTick (tr : TimeRunner) (secs : ℚ) : TimeRunner :=
  { tr with
      elasped :=
        { tr.elasped with
            now := secs
            now_period := periodPercentage secs tr.length } }

/-- `TimeRunner::is_completed` from `time_runner.rs`. -/
def TimeRunner.isCompleted (tr : TimeRunner) : Bool :=
  let atEdge :=
    match tr.direction with
    | TimeDirection.Forward =>
        decide (1 ≤ tr.elasped.now_period ∧
          tr.elasped.now_period = tr.elasped.previous_period)
    | TimeDirection.Backward =>
        decide (tr.elasped.now_period ≤ 0 ∧
          tr.elasped.now = tr.elasped.previous)
  match tr.repeat_ with
  | some (r, _) => r.exhausted && atEdge
  | none => atEdge

/-- One runner's step of `tick_time_runner_system` from `time_runner.rs`:
skip paused/completed runners, `raw_tick` by `delta * time_scale`, and decide
whether a `TimeRunnerEnded` event is sent (the returned `Bool`). -/
def tickTimeRunnerStep (delta : ℚ) (tr : TimeRunner) : TimeRunner × Bool :=
  if tr.paused || tr.isCompleted then (tr, false)
  else
    let tr2 := tr.rawTick (delta * tr.time_scale)
    let n := tr2.elasped.now_period
    let sendEvent :=
      match tr2.repeat_ with
      | some (_, RepeatStyle.PingPong) =>
          decide ((tr2.direction = TimeDirection.Forward ∧ n < 0) ∨
            (tr2.direction = TimeDirection.Backward ∧ 1 ≤ n))
      | _ =>
          decide ((tr2.direction = TimeDirection.Backward ∧ n < 0) ∨
            (tr2.direction = TimeDirection.Forward ∧ 1 ≤ n))
    (tr2, sendEvent)

/-- `TimeBound` from `time_span.rs`; the duration is its value in seconds. -/
inductive TimeBound
  | Inclusive (d : ℚ)
  | Exclusive (d : ℚ)
  deriving DecidableEq, Repr

/-- `TimeBound::duration`. -/
def TimeBound.duration : TimeBound → ℚ
  | .Inclusive d => d
  | .Exclusive d => d

/-- Whether a `TimeBound` is the `Exclusive` variant (the `matches!` test in
`TimeSpan::new`). -/
def TimeBound.isExclusive : TimeBound → Bool
  | .Inclusive _ => false
  | .Exclusive _ => true

/-- `NewTimeSpanError` from `time_span.rs`. -/
inductive NewTimeSpanError
  | NotTime (min max : TimeBound)
  | MinGreaterThanMax (min max : TimeBound)
  deriving DecidableEq, Repr

/-- `TimeSpan` from `time_span.rs`. -/
structure TimeSpan where
  min : TimeBound
  max : TimeBound
  deriving DecidableEq, Repr

/-- `TimeSpan::new` from `time_span.rs`.  Both failure cases are returned as
values (`Except.error`); the function is total, so it never panics. -/
def TimeSpan.new (min max : TimeBound) : Except NewTimeSpanError TimeSpan :=
  if min.isExclusive = true ∧ max.isExclusive = true ∧
      min.duration = max.duration then
    .error (.NotTime min max)
  else if min.duration > max.duration then
    .error (.MinGreaterThanMax min max)
  else
    .ok { min := min, max := max }

/-- `DurationQuotient` from `time_span.rs`. -/
inductive DurationQuotient
  | Before
  | Inside
  | After
  deriving DecidableEq, Repr

/-- `TimeSpan::quotient` from `time_span.rs`.  The Rust `(false, false)` arm
is `unreachable!()` (a panic); it is modelled as `none`. -/
def TimeSpan.quotient (span : TimeSpan) (secs : ℚ) : Option DurationQuotient :=
  let afterMin :=
    match span.min with
    | .Inclusive min => decide (min ≤ secs)
    | .Exclusive min => decide (min < secs)
  let beforeMax :=
    match span.max with
    | .Inclusive max => decide (secs ≤ max)
    | .Exclusive max => decide (secs < max)
  match afterMin, beforeMax with
  | true, true => some .Inside
  | true, false => some .After
  | false, true => some .Before
  | false, false => none

/-- The invariant `TimeSpan::new` establishes: `min.duration ≤ max.duration`
and the span is not an empty open interval. -/
def TimeSpan.Valid (span : TimeSpan) : Prop :=
  span.min.duration ≤ span.max.duration ∧
    ¬(span.min.isExclusive = true ∧ span.max.isExclusive = true ∧
      span.min.duration = span.max.duration)

/-- An `f32` that is a finite value or one of the two infinities, as produced
by the dispatcher's percentage computation. -/
inductive ExtFloat
  | fin (q : ℚ)
  | posInf
  | negInf
  deriving DecidableEq, Repr

/-- `TimeSpanProgress` from `time_span.rs` (percentages may be infinite). -/
structure TimeSpanProgress where
  now_percentage : ExtFloat
  now : ℚ
  previous_percentage : ExtFloat
  previous : ℚ
  deriving DecidableEq, Repr

/-- The dispatcher's `UseTime` (local enum in `time_runner_system`). -/
inductive UseTime
  | Current
  | Min
  | Max
  deriving DecidableEq, Repr

/-- The percentage computation of `time_runner_system` (`time_runner.rs`,
the `new_now_percentage` / `new_previous_percentage` expressions): divide by
the span length when it is positive, otherwise map the value's sign to an
infinity, breaking the tie at `0` by the runner's direction. -/
def dispatchPercentage (runnerDirection : TimeDirection)
    (spanLength value : ℚ) : ExtFloat :=
  if spanLength > 0 then .fin (value / spanLength)
  else if 0 < value then .posInf
  else if value < 0 then .negInf
  else
    match runnerDirection with
    | .Forward => .posInf
    | .Backward => .negInf

/-- The fresh `TimeSpanProgress` built by `time_runner_system` for a span the
runner is in range of, given the dispatcher's `UseTime` decision. -/
def dispatchProgress (runnerDirection : TimeDirection)
    (runnerElaspedNow runnerElaspedPrevious : ℚ) (span : TimeSpan)
    (useTime : UseTime) : TimeSpanProgress :=
  let spanMax := span.max.duration
  let spanMin := span.min.duration
  let spanLength := spanMax - spanMin
  let newNow :=
    match useTime with
    | .Current => runnerElaspedNow - spanMin
    | .Min => 0
    | .Max => spanLength
  let newPrevious := runnerElaspedPrevious - spanMin
  { now_percentage := dispatchPercentage runnerDirection spanLength newNow
    now := newNow
    previous_percentage :=
      dispatchPercentage runnerDirection spanLength newPrevious
    previous := newPrevious }

/-- Modelled from the spec: the percentage rule as §4.4 step (e) states it,
to be compared with the code's `dispatchPercentage`. -/
def specPercentage (runnerDirection : TimeDirection)
    (spanLength value : ℚ) : ExtFloat :=
  if spanLength > 0 then .fin (value / spanLength)
  else if 0 < value then .posInf
  else if value < 0 then .negInf
  else
    match runnerDirection with
    | .Forward => .posInf
    | .Backward => .negInf

/-- Flip a `TimeDirection` (used to state the PingPong parity rule). -/
def TimeDirection.flip : TimeDirection → TimeDirection
  | .Forward => .Backward
  | .Backward => .Forward

end BevyTimeRunner

namespace BevyTimeRunner

/-! ### Helper lemmas on the wave functions and the clamp -/

theorem sawWave_eq_fract (x L : ℚ) (hL : L ≠ 0) :
    sawWave x L = L * Int.fract (x / L) := by
  unfold sawWave Int.fract
  rw [mul_sub, mul_div_cancel₀ x hL]

theorem sawWave_nonneg (x L : ℚ) (hL : 0 < L) : 0 ≤ sawWave x L := by
  rw [sawWave_eq_fract x L hL.ne']
  exact mul_nonneg hL.le (Int.fract_nonneg _)

theorem sawWave_lt (x L : ℚ) (hL : 0 < L) : sawWave x L < L := by
  rw [sawWave_eq_fract x L hL.ne']
  calc L * Int.fract (x / L) < L * 1 :=
        (mul_lt_mul_left hL).mpr (Int.fract_lt_one _)
    _ = L := mul_one L

theorem triangleWave_nonneg (x L : ℚ) : 0 ≤ triangleWave x L :=
  abs_nonneg _

theorem triangleWave_le (x L : ℚ) (hL : 0 < L) : triangleWave x L ≤ L := by
  unfold triangleWave
  have h2 : (0 : ℚ) < L * 2 := by linarith
  have hlo := sawWave_nonneg (x + L) (L * 2) h2
  have hhi := sawWave_lt (x + L) (L * 2) h2
  rw [abs_le]
  constructor <;> linarith

theorem clampUpdate_now_bounds (e : TimeRunnerElasped) (x p L : ℚ)
    (hL : 0 ≤ L) :
    0 ≤ (clampUpdate e x p L).now ∧ (clampUpdate e x p L).now ≤ L := by
  unfold clampUpdate TimeRunnerElasped.update
  split_ifs with h1 h2 <;> constructor <;> simp <;> linarith

theorem clampUpdate_now_of_mem (e : TimeRunnerElasped) (x p L : ℚ)
    (hx0 : 0 ≤ x) (hxL : x ≤ L) : (clampUpdate e x p L).now = x := by
  unfold clampUpdate TimeRunnerElasped.update
  rw [if_neg (not_lt.mpr hxL), if_neg (not_lt.mpr hx0)]

/-! ### Claims -/

/-- C1: for every runner with positive length and every tick amount, after
`raw_tick` the cursor satisfies `0 ≤ elasped.now ≤ length`, in every branch:
the non-repeating clamp, the WrapAround saw wave, and the PingPong triangle
wave. -/
theorem rawTick_now_within_length (tr : TimeRunner) (secs : ℚ)
    (hL : 0 < tr.length) :
    0 ≤ (tr.rawTick secs).elasped.now ∧
      (tr.rawTick secs).elasped.now ≤ tr.length := by
  rcases htr : tr.repeat_ with _ | ⟨r, style⟩
  · simp only [TimeRunner.rawTick, htr]
    exact clampUpdate_now_bounds _ _ _ _ hL.le
  · simp only [TimeRunner.rawTick, htr]
    split_ifs with h0 hdir ha hb
    · exact clampUpdate_now_bounds _ _ _ _ hL.le
    · exact clampUpdate_now_bounds _ _ _ _ hL.le
    · cases style
      · exact ⟨sawWave_nonneg _ _ hL, (sawWave_lt _ _ hL).le⟩
      · exact ⟨triangleWave_nonneg _ _, triangleWave_le _ _ hL⟩
    · exact clampUpdate_now_bounds _ _ _ _ hL.le
    · cases style
      · exact ⟨sawWave_nonneg _ _ hL, (sawWave_lt _ _ hL).le⟩
      · exact ⟨triangleWave_nonneg _ _, triangleWave_le _ _ hL⟩

/-- C1 witness: a concrete runner of length 5 ticked by 7. -/
theorem rawTick_now_within_length_witness :
    (0 : ℚ) < 5 ∧
      (0 ≤ (TimeRunner.rawTick
          { paused := false
            elasped := { now := 0, now_period := 0, previous := 0,
                         previous_period := 0 }
            length := 5, direction := .Forward, time_scale := 1,
            repeat_ := none } 7).elasped.now ∧
        (TimeRunner.rawTick
          { paused := false
            elasped := { now := 0, now_period := 0, previous := 0,
                         previous_period := 0 }
            length := 5, direction := .Forward, time_scale := 1,
            repeat_ := none } 7).elasped.now ≤ 5) :=
  ⟨by norm_num,
    rawTick_now_within_length
      { paused := false
        elasped := { now := 0, now_period := 0, previous := 0,
                     previous_period := 0 }
        length := 5, direction := .Forward, time_scale := 1,
        repeat_ := none } 7 (by norm_num)⟩

/-- C10: `set_tick(secs)` writes `now = secs` exactly (no clamping or
validation) and `now_period = secs / length`, leaving `previous` and
`previous_period` unchanged. -/
theorem setTick_writes_unclamped (tr : TimeRunner) (secs : ℚ) :
    (tr.setTick secs).elasped.now = secs ∧
      (tr.setTick secs).elasped.now_period = secs / tr.length ∧
      (tr.setTick secs).elasped.previous = tr.elasped.previous ∧
      (tr.setTick secs).elasped.previous_period =
        tr.elasped.previous_period :=
  ⟨rfl, rfl, rfl, rfl⟩

end BevyTimeRunner

namespace BevyTimeRunner

/-- C4 counterexample: with `Times{times: 2, times_repeated: 3}` the counter
is exhausted (`times_repeated ≥ times`), yet `advance_counter_by(1)` returns
`-1` (not `0`) and changes `times_repeated` to `2`: the code only
short-circuits when `times - times_repeated` is exactly `0`. -/
theorem advanceCounterBy_exhausted_claim_false :
    Repeat.exhausted (.Times 2 3) = true ∧
      Repeat.advanceCounterBy (.Times 2 3) 1 = (.Times 2 2, -1) := by
  constructor
  · decide
  · decide

/-- C4 (amended): `advance_counter_by(k)` on `Times{times, times_repeated}`
returns `0` and leaves the counter unchanged exactly when
`times - times_repeated = 0`; otherwise it consumes the signed minimum
`min k (times - times_repeated)` (not `min(|k|, remaining)` with `k`'s sign),
adds it to `times_repeated`, and returns it. -/
theorem advanceCounterBy_times_eq (times times_repeated k : ℤ) :
    Repeat.advanceCounterBy (.Times times times_repeated) k =
      (.Times times
          (times_repeated +
            (if times - times_repeated = 0 then 0
             else min k (times - times_repeated))),
        if times - times_repeated = 0 then 0
        else min k (times - times_repeated)) := by
  simp only [Repeat.advanceCounterBy]
  split_ifs with h hgt
  · simp
  · rw [min_eq_left (le_of_lt hgt)]
  · rw [min_eq_right (not_lt.mp hgt)]

/-- C5: `TimeSpan::new(min, max)` returns the `NotTime` error exactly when
both bounds are Exclusive with equal durations, the `MinGreaterThanMax` error
exactly when that does not apply and `min.duration > max.duration`, and
otherwise `Ok {min, max}`; both errors are values and the (total) constructor
never panics. -/
theorem timeSpan_new_characterization (min max : TimeBound) :
    (TimeSpan.new min max = .error (.NotTime min max) ↔
      min.isExclusive = true ∧ max.isExclusive = true ∧
        min.duration = max.duration) ∧
    (TimeSpan.new min max = .error (.MinGreaterThanMax min max) ↔
      ¬(min.isExclusive = true ∧ max.isExclusive = true ∧
          min.duration = max.duration) ∧
        max.duration < min.duration) ∧
    (TimeSpan.new min max = .ok { min := min, max := max } ↔
      ¬(min.isExclusive = true ∧ max.isExclusive = true ∧
          min.duration = max.duration) ∧
        min.duration ≤ max.duration) := by
  unfold TimeSpan.new
  split_ifs with h1 h2
  · simp [h1]
  · simp [h1, h2, not_le.mpr h2]
  · simp [h1, h2, le_of_not_lt h2]

/-- The lower-endpoint inclusion test of `TimeSpan::quotient` (`after_min`),
as a proposition: `≥` for an Inclusive bound, `>` for an Exclusive one. -/
def TimeBound.lowerTest : TimeBound → ℚ → Prop
  | .Inclusive d, s => d ≤ s
  | .Exclusive d, s => d < s

/-- The upper-endpoint inclusion test of `TimeSpan::quotient` (`before_max`),
as a proposition: `≤` for an Inclusive bound, `<` for an Exclusive one. -/
def TimeBound.upperTest : TimeBound → ℚ → Prop
  | .Inclusive d, s => s ≤ d
  | .Exclusive d, s => s < d

/-- C8: on a span satisfying the constructor invariant, `quotient(s)` is
`Inside` iff `s` passes both endpoint inclusion tests, `Before` iff it fails
the lower one, `After` iff it fails the upper one, and the `(false, false)`
panicking arm (modelled `none`) is unreachable. -/
theorem quotient_characterization (span : TimeSpan) (h : span.Valid)
    (s : ℚ) :
    span.quotient s ≠ none ∧
      (span.quotient s = some .Before ↔ ¬span.min.lowerTest s) ∧
      (span.quotient s = some .After ↔ ¬span.max.upperTest s) ∧
      (span.quotient s = some .Inside ↔
        span.min.lowerTest s ∧ span.max.upperTest s) := by
  obtain ⟨hle, hne⟩ := h
  rcases hmin : span.min with mn | mn <;> rcases hmax : span.max with mx | mx <;>
    rw [hmin, hmax] at hle hne <;>
    simp only [TimeBound.duration, TimeBound.isExclusive] at hle hne <;>
    simp only [TimeSpan.quotient, hmin, hmax, TimeBound.lowerTest,
      TimeBound.upperTest]
  · by_cases hlo : mn ≤ s <;> by_cases hhi : s ≤ mx <;> simp [hlo, hhi]
    linarith [not_le.mp hlo, not_le.mp hhi]
  · by_cases hlo : mn ≤ s <;> by_cases hhi : s < mx <;> simp [hlo, hhi]
    linarith [not_le.mp hlo, not_lt.mp hhi]
  · by_cases hlo : mn < s <;> by_cases hhi : s ≤ mx <;> simp [hlo, hhi]
    linarith [not_lt.mp hlo, not_le.mp hhi]
  · by_cases hlo : mn < s <;> by_cases hhi : s < mx <;> simp [hlo, hhi]
    exact hne ⟨trivial, trivial,
      le_antisymm hle (le_trans (not_lt.mp hhi) (not_lt.mp hlo))⟩

end BevyTimeRunner

namespace BevyTimeRunner

/-- C8 witness: the span `[2, 5)` is valid and classifies `3` as Inside. -/
theorem quotient_characterization_witness :
    (TimeSpan.mk (.Inclusive 2) (.Exclusive 5)).Valid ∧
      (TimeSpan.mk (.Inclusive 2) (.Exclusive 5)).quotient 3 =
        some .Inside :=
  ⟨by constructor <;> decide,
    ((quotient_characterization (TimeSpan.mk (.Inclusive 2) (.Exclusive 5))
          (by constructor <;> decide) 3).2.2.2).mpr
      ⟨by norm_num [TimeBound.lowerTest], by norm_num [TimeBound.upperTest]⟩⟩

/-- C2: when the length is positive, the style is WrapAround, the tick crosses
a period boundary (`k = ⌊n₁ / L⌋ ≠ 0`) and the repeat counter consumes a
nonzero amount, `raw_tick` writes `now = n₁ mod L` (Euclidean modulo, in
`[0, L)`) and the unclamped `now_period = n₁ / L`. -/
theorem rawTick_wrapAround_wraps (tr : TimeRunner) (secs : ℚ) (r : Repeat)
    (hL : 0 < tr.length)
    (hr : tr.repeat_ = some (r, .WrapAround))
    (hk : ⌊tr.candidate secs / tr.length⌋ ≠ 0)
    (ha : (r.advanceCounterBy
        (if tr.direction = .Forward then ⌊tr.candidate secs / tr.length⌋
         else -⌊tr.candidate secs / tr.length⌋)).2 ≠ 0) :
    (tr.rawTick secs).elasped.now = sawWave (tr.candidate secs) tr.length ∧
      0 ≤ (tr.rawTick secs).elasped.now ∧
      (tr.rawTick secs).elasped.now < tr.length ∧
      (tr.rawTick secs).elasped.now_period =
        tr.candidate secs / tr.length := by
  simp only [TimeRunner.rawTick, periodPercentage, hr]
  rw [if_neg hk, if_neg ha]
  exact ⟨rfl, sawWave_nonneg _ _ hL, sawWave_lt _ _ hL, rfl⟩

/-- A concrete runner used by the C2 witness: length 5, cursor at 4.5, one
infinite WrapAround repeat. -/
def wrapRunner : TimeRunner :=
  { paused := false
    elasped := { now := 9/2, now_period := 9/10, previous := 7/2,
                 previous_period := 7/10 }
    length := 5, direction := .Forward, time_scale := 1,
    repeat_ := some (.Infinitely, .WrapAround) }

/-- C2 witness: `wrapRunner` ticked by 1 crosses the boundary and wraps. -/
theorem rawTick_wrapAround_wraps_witness :
    (0 : ℚ) < wrapRunner.length ∧
      ((wrapRunner.rawTick 1).elasped.now =
          sawWave (wrapRunner.candidate 1) wrapRunner.length ∧
        0 ≤ (wrapRunner.rawTick 1).elasped.now ∧
        (wrapRunner.rawTick 1).elasped.now < wrapRunner.length ∧
        (wrapRunner.rawTick 1).elasped.now_period =
          wrapRunner.candidate 1 / wrapRunner.length) :=
  ⟨by norm_num [wrapRunner],
    rawTick_wrapAround_wraps wrapRunner 1 .Infinitely
      (by norm_num [wrapRunner]) rfl
      (by norm_num [wrapRunner, TimeRunner.candidate])
      (by norm_num [wrapRunner, TimeRunner.candidate,
        Repeat.advanceCounterBy])⟩

/-- C7: in the dispatcher's progress record the percentages follow the spec's
rule — `value / span_length` for a positive span length, otherwise `+∞` / `−∞`
by the value's sign with the runner's direction breaking the tie at zero —
computed independently for `now` and for `previous`. -/
theorem dispatchProgress_percentage_spec (dir : TimeDirection)
    (rnow rprev : ℚ) (span : TimeSpan) (useTime : UseTime) :
    (dispatchProgress dir rnow rprev span useTime).now_percentage =
      specPercentage dir (span.max.duration - span.min.duration)
        (dispatchProgress dir rnow rprev span useTime).now ∧
    (dispatchProgress dir rnow rprev span useTime).previous_percentage =
      specPercentage dir (span.max.duration - span.min.duration)
        (dispatchProgress dir rnow rprev span useTime).previous :=
  ⟨rfl, rfl⟩

end BevyTimeRunner

namespace BevyTimeRunner

/-- C3: with repeat `(Infinitely, PingPong)`, positive length, direction
Forward and cursor at `0`, one `raw_tick(2L)` returns the cursor to `0` with
direction Forward and two periods consumed (`now_period = 2`); and in general,
whenever the PingPong branch is taken, the direction flips iff
`k = ⌊n₁ / L⌋` is odd (from Forward, even `k` gives Forward; from Backward,
the opposite parity). -/
theorem pingPong_double_tick_and_parity :
    (∀ tr : TimeRunner, 0 < tr.length → tr.direction = .Forward →
      tr.elasped.now = 0 →
      tr.repeat_ = some (.Infinitely, .PingPong) →
      (tr.rawTick (2 * tr.length)).elasped.now = 0 ∧
        (tr.rawTick (2 * tr.length)).direction = .Forward ∧
        (tr.rawTick (2 * tr.length)).elasped.now_period = 2) ∧
    (∀ (tr : TimeRunner) (secs : ℚ) (r : Repeat),
      tr.repeat_ = some (r, .PingPong) →
      ⌊tr.candidate secs / tr.length⌋ ≠ 0 →
      (r.advanceCounterBy
          (if tr.direction = .Forward then ⌊tr.candidate secs / tr.length⌋
           else -⌊tr.candidate secs / tr.length⌋)).2 ≠ 0 →
      (tr.rawTick secs).direction =
        (if ⌊tr.candidate secs / tr.length⌋ % 2 = 0 then tr.direction
         else tr.direction.flip)) := by
  constructor
  · intro tr hL hdir hnow hrep
    have hLne : tr.length ≠ 0 := ne_of_gt hL
    have hcand : tr.candidate (2 * tr.length) = 2 * tr.length := by
      simp [TimeRunner.candidate, hdir, hnow]
    have hp : 2 * tr.length / tr.length = 2 :=
      mul_div_cancel_right₀ 2 hLne
    have htri : triangleWave (2 * tr.length) tr.length = 0 := by
      unfold triangleWave sawWave
      have h32 : (2 * tr.length + tr.length) / (tr.length * 2) = 3 / 2 := by
        field_simp
        ring
      rw [h32]
      have hf : ⌊(3 : ℚ) / 2⌋ = 1 := by norm_num
      rw [hf]
      push_cast
      ring_nf
      exact abs_zero
    simp only [TimeRunner.rawTick, hrep, periodPercentage, hcand, hp]
    norm_num [Repeat.advanceCounterBy, htri, TimeRunnerElasped.update,
      triangleWaveDirection, hdir]
  · intro tr secs r hrep hk ha
    simp only [TimeRunner.rawTick, periodPercentage, hrep]
    rw [if_neg hk, if_neg ha]
    rcases hdir : tr.direction
    · simp only [hdir, triangleWaveDirection, TimeDirection.flip]
    · simp only [hdir, backwardTriangleWaveDirection, TimeDirection.flip]

/-- A concrete runner used by the C3 witness: length 5, cursor at 0, one
infinite PingPong repeat. -/
def pingRunner : TimeRunner :=
  { paused := false
    elasped := { now := 0, now_period := 0, previous := 0,
                 previous_period := 0 }
    length := 5, direction := .Forward, time_scale := 1,
    repeat_ := some (.Infinitely, .PingPong) }

/-- C3 witness: ticking `pingRunner` by `2 * 5` returns the cursor to 0,
keeps direction Forward and records two consumed periods. -/
theorem pingPong_double_tick_and_parity_witness :
    (0 : ℚ) < pingRunner.length ∧
      ((pingRunner.rawTick (2 * pingRunner.length)).elasped.now = 0 ∧
        (pingRunner.rawTick (2 * pingRunner.length)).direction = .Forward ∧
        (pingRunner.rawTick (2 * pingRunner.length)).elasped.now_period =
          2) :=
  ⟨by norm_num [pingRunner],
    pingPong_double_tick_and_parity.1 pingRunner
      (by norm_num [pingRunner]) rfl rfl rfl⟩

/-- On a runner without a repeat configuration, `raw_tick` is exactly the
clamp-and-write fall-through. -/
theorem rawTick_none_eq (u : TimeRunner) (secs : ℚ)
    (hrep : u.repeat_ = none) :
    u.rawTick secs =
      { u with
          elasped := clampUpdate u.elasped (u.candidate secs)
            (periodPercentage (u.candidate secs) u.length) u.length } := by
  simp only [TimeRunner.rawTick, hrep]

/-- The candidate cursor of a Forward runner is `now + secs`. -/
theorem candidate_of_forward (u : TimeRunner) (secs : ℚ)
    (h : u.direction = .Forward) :
    u.candidate secs = u.elasped.now + secs := by
  unfold TimeRunner.candidate
  rw [h]

/-- The candidate cursor of a Backward runner is `now - secs`. -/
theorem candidate_of_backward (u : TimeRunner) (secs : ℚ)
    (h : u.direction = .Backward) :
    u.candidate secs = u.elasped.now - secs := by
  unfold TimeRunner.candidate
  rw [h]

/-- C9: on a non-repeating runner, advancing by `d` Forward and then by `d`
Backward returns `now` to its starting value, provided neither candidate
cursor leaves `[0, length]` (so neither advance clips). -/
theorem rawTick_forward_backward_roundtrip (tr : TimeRunner) (d : ℚ)
    (hrep : tr.repeat_ = none) (hdir : tr.direction = .Forward)
    (h0 : 0 ≤ tr.elasped.now) (h1 : tr.elasped.now ≤ tr.length)
    (h2 : 0 ≤ tr.elasped.now + d) (h3 : tr.elasped.now + d ≤ tr.length) :
    (TimeRunner.rawTick { tr.rawTick d with direction := .Backward }
        d).elasped.now = tr.elasped.now := by
  have hc : tr.candidate d = tr.elasped.now + d :=
    candidate_of_forward tr d hdir
  have e1 : (tr.rawTick d).elasped.now = tr.elasped.now + d := by
    rw [rawTick_none_eq tr d hrep]
    show (clampUpdate tr.elasped (tr.candidate d)
        (periodPercentage (tr.candidate d) tr.length) tr.length).now = _
    rw [hc, clampUpdate_now_of_mem _ _ _ _ h2 h3]
  have hrep2 :
      ({ tr.rawTick d with direction := .Backward } : TimeRunner).repeat_ =
        none := by
    show (tr.rawTick d).repeat_ = none
    rw [rawTick_none_eq tr d hrep]
    exact hrep
  have hlen2 :
      ({ tr.rawTick d with direction := .Backward } : TimeRunner).length =
        tr.length := by
    show (tr.rawTick d).length = tr.length
    rw [rawTick_none_eq tr d hrep]
  have hcand2 :
      TimeRunner.candidate { tr.rawTick d with direction := .Backward } d =
        tr.elasped.now := by
    rw [candidate_of_backward _ d rfl]
    show (tr.rawTick d).elasped.now - d = _
    rw [e1]
    ring
  rw [rawTick_none_eq _ d hrep2]
  show (clampUpdate _
      (TimeRunner.candidate { tr.rawTick d with direction := .Backward } d)
      _ ({ tr.rawTick d with direction := .Backward } : TimeRunner).length
      ).now = _
  rw [hcand2, hlen2, clampUpdate_now_of_mem _ _ _ _ h0 h1]

/-- A concrete non-repeating runner used by the C9 witness: length 5, cursor
at 1. -/
def plainRunner : TimeRunner :=
  { paused := false
    elasped := { now := 1, now_period := 1/5, previous := 0,
                 previous_period := 0 }
    length := 5, direction := .Forward, time_scale := 1,
    repeat_ := none }

/-- C9 witness: ticking `plainRunner` by 2 Forward then by 2 Backward
returns `now` to 1. -/
theorem rawTick_forward_backward_roundtrip_witness :
    plainRunner.repeat_ = none ∧
      (TimeRunner.rawTick
          { plainRunner.rawTick 2 with direction := .Backward }
          2).elasped.now = plainRunner.elasped.now :=
  ⟨rfl,
    rawTick_forward_backward_roundtrip plainRunner 2 rfl rfl
      (by norm_num [plainRunner]) (by norm_num [plainRunner])
      (by norm_num [plainRunner]) (by norm_num [plainRunner])⟩

end BevyTimeRunner

namespace BevyTimeRunner

/-- C6: for a non-paused, non-completed runner, the tick pass advances it by
`delta * time_scale`, and the `Ended` event is sent iff — testing the
post-tick (post-flip) direction `dir` and the unclamped `n = now_period` —
with a PingPong repeat: `dir = Forward ∧ n < 0` or `dir = Backward ∧ n ≥ 1`;
and with no repeat or a non-PingPong repeat the opposite pairing:
`dir = Backward ∧ n < 0` or `dir = Forward ∧ n ≥ 1`. -/
theorem tickSystem_event_iff (delta : ℚ) (tr : TimeRunner)
    (hp : tr.paused = false) (hc : tr.isCompleted = false) :
    (tickTimeRunnerStep delta tr).1 = tr.rawTick (delta * tr.time_scale) ∧
      (∀ rp : Repeat,
        (tr.rawTick (delta * tr.time_scale)).repeat_ =
            some (rp, .PingPong) →
        ((tickTimeRunnerStep delta tr).2 = true ↔
          (((tr.rawTick (delta * tr.time_scale)).direction = .Forward ∧
              (tr.rawTick (delta * tr.time_scale)).elasped.now_period < 0) ∨
            ((tr.rawTick (delta * tr.time_scale)).direction = .Backward ∧
              1 ≤ (tr.rawTick
                (delta * tr.time_scale)).elasped.now_period)))) ∧
      ((∀ rp : Repeat,
          (tr.rawTick (delta * tr.time_scale)).repeat_ ≠
            some (rp, .PingPong)) →
        ((tickTimeRunnerStep delta tr).2 = true ↔
          (((tr.rawTick (delta * tr.time_scale)).direction = .Backward ∧
              (tr.rawTick (delta * tr.time_scale)).elasped.now_period < 0) ∨
            ((tr.rawTick (delta * tr.time_scale)).direction = .Forward ∧
              1 ≤ (tr.rawTick
                (delta * tr.time_scale)).elasped.now_period)))) := by
  unfold tickTimeRunnerStep
  rw [hp, hc]
  simp only [Bool.or_self, Bool.false_eq_true, if_false]
  refine ⟨trivial, ?_, ?_⟩
  · intro rp hrep
    simp only [hrep, decide_eq_true_eq]
  · intro hall
    rcases hrep : (tr.rawTick (delta * tr.time_scale)).repeat_ with
        _ | ⟨rp, st⟩
    · simp only [hrep, decide_eq_true_eq]
    · cases st
      · simp only [hrep, decide_eq_true_eq]
      · exact absurd hrep (hall rp)

/-- A concrete runner used by the C6 witness: length 5, cursor at 0, no
repeat; a tick of 6 overshoots the end. -/
def tickRunner : TimeRunner :=
  { paused := false
    elasped := { now := 0, now_period := 0, previous := 0,
                 previous_period := 0 }
    length := 5, direction := .Forward, time_scale := 1,
    repeat_ := none }

/-- C6 witness: ticking `tickRunner` by 6 clamps the cursor to the end
(`now_period = 6/5 ≥ 1`, direction Forward, no repeat), so the event fires. -/
theorem tickSystem_event_iff_witness :
    tickRunner.paused = false ∧ tickRunner.isCompleted = false ∧
      (tickTimeRunnerStep 6 tickRunner).2 = true :=
  ⟨rfl, by norm_num [tickRunner, TimeRunner.isCompleted],
    ((tickSystem_event_iff 6 tickRunner rfl
          (by norm_num [tickRunner, TimeRunner.isCompleted])).2.2
        (fun rp h => by
          rw [show (tickRunner.rawTick (6 * tickRunner.time_scale)).repeat_ =
              none by
            rw [rawTick_none_eq tickRunner _ rfl]
            rfl] at h
          exact Option.noConfusion h)).mpr
      (Or.inr ⟨by
          rw [rawTick_none_eq tickRunner _ rfl]
          rfl,
        by
          rw [rawTick_none_eq tickRunner _ rfl]
          norm_num [tickRunner, TimeRunner.candidate, clampUpdate,
            TimeRunnerElasped.update, periodPercentage]⟩)⟩

end BevyTimeRunner
